import Mathlib

/-!
Shallow embedding of the Finance-tracker ledger engine
(`src/app/funds/page.tsx`: the pure calculation module
`lib/finance/calculations` and the store actions of `financeStore`).

Modelling conventions:
- Monetary amounts and percentages are exact rationals `ℚ`
  (the source works on JS numbers and rounds to two decimals with
  `Math.round(x * 100) / 100`; `jsRound` below is `⌊x + 1/2⌋`, which is
  the value `Math.round` computes).
- A JS object (`Record<string, _>`) is an association list whose keys are
  unique; property read is `getKey`, property write is `setKey` (replace
  in place when the key exists, append when it is fresh, exactly the key
  order JS objects keep), property removal by rest-spread is `removeKey`.
- Timestamps (`Date`) are natural numbers; `new Date()` becomes an
  explicit `now` argument, and the freshly generated `uuidv4()` an
  explicit `newId` argument.
- A thrown `Error` is `Except.error` with the thrown message: the store
  calls `set` only after every computation finished, so a throw reaches
  the caller with the state untouched.
-/

/-- Lookup of a key in a JS-object association list (`obj[k]`). -/
def getKey {α : Type} : List (String × α) → String → Option α
  | [], _ => none
  | p :: rest, k => if p.1 = k then some p.2 else getKey rest k

/-- Write of a key in a JS-object association list (`obj[k] = v`):
replace when present, append when fresh. -/
def setKey {α : Type} : List (String × α) → String → α → List (String × α)
  | [], k, v => [(k, v)]
  | p :: rest, k, v => if p.1 = k then (k, v) :: rest else p :: setKey rest k v

/-- Removal of a key (`const { [k]: removed, ...rest } = obj`). -/
def removeKey {α : Type} (m : List (String × α)) (k : String) : List (String × α) :=
  m.filter (fun p => decide (p.1 ≠ k))

/-- `TransactionType` from `src/types/index.ts`. -/
inductive TransactionType where
  | INCOME : TransactionType
  | EXPENSE : TransactionType
deriving DecidableEq

/-- `Fund` from `src/types/index.ts`. -/
structure Fund where
  id : String
  name : String
  description : String
  currentBalance : ℚ
  lifetimeInflow : ℚ
  lifetimeOutflow : ℚ
  color : Option String := none
  isTaxFund : Option Bool := none
  createdAt : ℕ
  updatedAt : ℕ
deriving DecidableEq

/-- `Transaction` from `src/types/index.ts` (validation receives it without
`id`/`createdAt`/`updatedAt`; those fields are simply ignored there). -/
structure Transaction where
  id : String
  type : TransactionType
  amount : ℚ
  date : ℕ
  description : String
  costOfProduction : Option ℚ := none
  profit : Option ℚ := none
  sourceFundId : Option String := none
  createdAt : ℕ
  updatedAt : ℕ
deriving DecidableEq

/-- `ProfitDistribution` from `src/types/index.ts`. -/
structure ProfitDistribution where
  fundId : String
  percentage : ℚ
deriving DecidableEq

/-- The engine-relevant part of `FinancialState` (budgets carry no fund
logic and are omitted). -/
structure FinancialState where
  funds : List (String × Fund)
  transactions : List Transaction
  profitDistribution : List ProfitDistribution
  taxEnabled : Bool
  lastUpdated : ℕ
deriving DecidableEq

/-- The `{ isValid, error? }` result shape of the validators. -/
structure ValidationResult where
  isValid : Bool
  error : Option String := none
deriving DecidableEq

/-- JS `Math.round`: round half toward `+∞`, i.e. `⌊x + 1/2⌋`, written
with `Int.fdiv` so that it evaluates by kernel reduction. -/
def jsRound (x : ℚ) : ℤ := (2 * x.num + (x.den : ℤ)).fdiv (2 * (x.den : ℤ))

/-- `Math.round(x * 100) / 100`: round to two decimals. -/
def round2 (x : ℚ) : ℚ := ((jsRound (x * 100) : ℤ) : ℚ) / 100

/-- `calculateProfit` (calculations module): `income − cost`, throwing on
negative income, negative cost, or cost exceeding income. -/
def calculateProfit (income costOfProduction : ℚ) : Except String ℚ :=
  if income < 0 then .error "Income cannot be negative"
  else if costOfProduction < 0 then .error "Cost of production cannot be negative"
  else if costOfProduction > income then .error "Cost of production cannot exceed income"
  else .ok (income - costOfProduction)

/-- `distributions.reduce((sum, dist) => sum + dist.percentage, 0)`, the
percentage total used by `validateProfitDistribution` and `toggleTaxFund`. -/
def sumPercent (ds : List ProfitDistribution) : ℚ :=
  ds.foldl (fun sum dist => sum + dist.percentage) 0

/-- `validateProfitDistribution`: valid iff the percentage total is within
`0.01` of `100` (the source interpolates the total into its message; the
message text is kept constant here). -/
def validateProfitDistribution (ds : List ProfitDistribution) : ValidationResult :=
  if |sumPercent ds - 100| > 1/100 then
    ⟨false, some "Profit distribution must sum to 100%"⟩
  else ⟨true, none⟩

/-- The allocation loop of `distributeProfit`: every entry but the last
gets `round2(profit * percentage / 100)` (subtracted from `remaining`);
the last entry gets `round2(remaining)`; `result[fundId] = amount`. -/
def distributeProfitGo (profit : ℚ) :
    List ProfitDistribution → ℚ → List (String × ℚ) → List (String × ℚ)
  | [], _, result => result
  | [d], remaining, result => setKey result d.fundId (round2 remaining)
  | d :: d2 :: rest, remaining, result =>
    distributeProfitGo profit (d2 :: rest)
      (remaining - round2 (profit * d.percentage / 100))
      (setKey result d.fundId (round2 (profit * d.percentage / 100)))

/-- `distributeProfit`: validate the distribution, then run the
allocation loop starting from an empty result and `remaining = profit`. -/
def distributeProfit (profit : ℚ) (ds : List ProfitDistribution) :
    Except String (List (String × ℚ)) :=
  let validation := validateProfitDistribution ds
  if validation.isValid then .ok (distributeProfitGo profit ds profit [])
  else .error (validation.error.getD "Invalid profit distribution")

/-- `calculateFundTotals`: the reduce over `Object.values(funds)` summing
balance, inflow and outflow. -/
def calculateFundTotals (funds : List (String × Fund)) : ℚ × ℚ × ℚ :=
  funds.foldl
    (fun acc p => (acc.1 + p.2.currentBalance, acc.2.1 + p.2.lifetimeInflow,
      acc.2.2 + p.2.lifetimeOutflow))
    (0, 0, 0)

/-- `validateTransaction`: the rule cascade of the calculations module.
`!transaction.sourceFundId` is JS-falsy for both a missing id and the
empty string. -/
def validateTransaction (t : Transaction) (funds : List (String × Fund))
    (now : ℕ) : ValidationResult :=
  if t.amount ≤ 0 then ⟨false, some "Amount must be positive"⟩
  else if now < t.date then ⟨false, some "Transaction date cannot be in the future"⟩
  else
    match t.type with
    | .INCOME =>
      match t.costOfProduction with
      | none => ⟨false, some "Cost of production is required for income"⟩
      | some cost =>
        if cost < 0 then ⟨false, some "Cost of production cannot be negative"⟩
        else if cost > t.amount then ⟨false, some "Cost of production cannot exceed income"⟩
        else
          match calculateProfit t.amount cost with
          | .error e => ⟨false, some e⟩
          | .ok profit =>
            if profit < 0 then ⟨false, some "Profit must be non-negative"⟩
            else ⟨true, none⟩
    | .EXPENSE =>
      match t.sourceFundId with
      | none => ⟨false, some "Source fund is required for expenses"⟩
      | some s =>
        if s = "" then ⟨false, some "Source fund is required for expenses"⟩
        else
          match getKey funds s with
          | none => ⟨false, some "Selected fund does not exist"⟩
          | some sourceFund =>
            if sourceFund.currentBalance < t.amount then
              ⟨false, some "Insufficient funds in selected account"⟩
            else ⟨true, none⟩

/-- The `Object.entries(distributionsMap).forEach` loop of
`applyTransactionToFunds` (INCOME case): add the allocated amount to the
balance and lifetime inflow of every fund that exists; entries whose
`fundId` is not a key of the fund collection are skipped. -/
def applyIncomeAllocations (funds : List (String × Fund))
    (allocs : List (String × ℚ)) (now : ℕ) : List (String × Fund) :=
  allocs.foldl
    (fun fs pa =>
      match getKey fs pa.1 with
      | some f =>
        setKey fs pa.1
          { f with
            currentBalance := f.currentBalance + pa.2
            lifetimeInflow := f.lifetimeInflow + pa.2
            updatedAt := now }
      | none => fs)
    funds

/-- `applyTransactionToFunds` (pure mutator). INCOME: compute the profit,
allocate it, apply the allocations. EXPENSE: debit the source fund when
`sourceFundId` is truthy and names an existing fund. The source reads
`transaction.costOfProduction!`; a missing cost (unreachable after
validation) is modelled as a thrown error. -/
def applyTransactionToFunds (funds : List (String × Fund)) (t : Transaction)
    (distributions : List ProfitDistribution) (now : ℕ) :
    Except String (List (String × Fund)) :=
  match t.type with
  | .INCOME =>
    match t.costOfProduction with
    | none => .error "Cost of production is required for income"
    | some cost =>
      match calculateProfit t.amount cost with
      | .error e => .error e
      | .ok profit =>
        match distributeProfit profit distributions with
        | .error e => .error e
        | .ok distributionsMap => .ok (applyIncomeAllocations funds distributionsMap now)
  | .EXPENSE =>
    match t.sourceFundId with
    | none => .ok funds
    | some s =>
      if s = "" then .ok funds
      else
        match getKey funds s with
        | none => .ok funds
        | some fund =>
          .ok (setKey funds s
            { fund with
              currentBalance := fund.currentBalance - t.amount
              lifetimeOutflow := fund.lifetimeOutflow + t.amount
              updatedAt := now })

/-- `addTransaction` (store action): validate, build the transaction
(computing `profit` for INCOME), apply it to the funds, and only then
replace the state; any failure is a throw that leaves the state as it
was. -/
def addTransaction (st : FinancialState) (td : Transaction) (newId : String)
    (now : ℕ) : Except String FinancialState :=
  let validation := validateTransaction td st.funds now
  if validation.isValid = false then .error (validation.error.getD "")
  else
    let profitResult : Except String (Option ℚ) :=
      match td.type with
      | .INCOME =>
        match td.costOfProduction with
        | none => .error "Cost of production is required for income"
        | some cost => (calculateProfit td.amount cost).map some
      | .EXPENSE => .ok none
    match profitResult with
    | .error e => .error e
    | .ok profitValue =>
      let t : Transaction :=
        { td with id := newId, profit := profitValue, createdAt := now, updatedAt := now }
      match applyTransactionToFunds st.funds t st.profitDistribution now with
      | .error e => .error e
      | .ok updatedFunds =>
        .ok { st with
          funds := updatedFunds
          transactions := st.transactions ++ [t]
          lastUpdated := now }

/-- `createFund` (store action): a fresh fund starts with zero balance and
zero lifetime counters (the caller-supplied data cannot override them). -/
def createFund (st : FinancialState) (newId fundName fundDescription : String)
    (color : Option String) (now : ℕ) : FinancialState :=
  let newFund : Fund :=
    { id := newId, name := fundName, description := fundDescription,
      currentBalance := 0, lifetimeInflow := 0, lifetimeOutflow := 0,
      color := color, createdAt := now, updatedAt := now }
  { st with funds := setKey st.funds newId newFund, lastUpdated := now }

/-- `deleteFund` (store action): throw when the balance is `> 0`, throw
when some EXPENSE transaction references the fund, otherwise remove the
fund and filter it out of the distribution. Reading a missing fund
(`funds[fundId].currentBalance`) is a JS `TypeError` throw, modelled as an
error. -/
def deleteFund (st : FinancialState) (fundId : String) (now : ℕ) :
    Except String FinancialState :=
  match getKey st.funds fundId with
  | none => .error "TypeError: fund is undefined"
  | some f =>
    if f.currentBalance > 0 then .error "Cannot delete fund with remaining balance"
    else if st.transactions.any
        (fun t => t.type = .EXPENSE ∧ t.sourceFundId = some fundId) then
      .error "Cannot delete fund referenced in transactions"
    else
      .ok { st with
        funds := removeKey st.funds fundId
        profitDistribution := st.profitDistribution.filter (fun d => decide (d.fundId ≠ fundId))
        lastUpdated := now }

/-- `toggleTaxFund` (store action). Enabling: rescale every entry by
`95 / total` and append a 5% taxes entry. Disabling: drop the taxes
entries, then rescale every remaining entry by `100 / total`. The source
divides by the total with no zero guard (`ℚ` division by zero is `0`
here; in JS it is `NaN`/`Infinity` — either way no error is reported). -/
def toggleTaxFund (st : FinancialState) (enabled : Bool) (now : ℕ) :
    FinancialState :=
  if enabled then
    let currentDistribution := st.profitDistribution
    let totalWithoutTaxes := sumPercent currentDistribution
    let scaledDistribution := currentDistribution.map
      (fun d => { d with percentage := d.percentage / totalWithoutTaxes * 95 })
    { st with
      taxEnabled := true
      profitDistribution := scaledDistribution ++ [⟨"taxes", 5⟩]
      lastUpdated := now }
  else
    let currentDistribution := st.profitDistribution.filter
      (fun d => decide (d.fundId ≠ "taxes"))
    let totalWithoutTaxes := sumPercent currentDistribution
    let scaledDistribution := currentDistribution.map
      (fun d => { d with percentage := d.percentage / totalWithoutTaxes * 100 })
    { st with
      taxEnabled := false
      profitDistribution := scaledDistribution
      lastUpdated := now }

example : validateProfitDistribution [⟨"f", 100⟩] = ⟨true, none⟩ := by
  norm_num [validateProfitDistribution, sumPercent]

example : (validateProfitDistribution [⟨"a", 60⟩, ⟨"b", 3999/100⟩]).isValid = true := by
  norm_num [validateProfitDistribution, sumPercent, lt_abs]

example : (validateProfitDistribution []).isValid = false := by
  norm_num [validateProfitDistribution, sumPercent, lt_abs]

/-! ### Association-list lemmas -/

theorem getKey_setKey_self {α : Type} (m : List (String × α)) (k : String) (v : α) :
    getKey (setKey m k v) k = some v := by
  induction m with
  | nil => simp [setKey, getKey]
  | cons p rest ih =>
    by_cases h : p.1 = k
    · simp [setKey, h, getKey]
    · simp [setKey, h, getKey, ih]

theorem getKey_setKey_ne {α : Type} (m : List (String × α)) (k k' : String) (v : α)
    (h : k' ≠ k) : getKey (setKey m k v) k' = getKey m k' := by
  induction m with
  | nil => simp [setKey, getKey, Ne.symm h]
  | cons p rest ih =>
    by_cases hp : p.1 = k
    · simp [setKey, hp, getKey, Ne.symm h]
    · simp [setKey, hp, getKey, ih]

theorem getKey_mem {α : Type} :
    ∀ (m : List (String × α)) (k : String) (f : α), getKey m k = some f → (k, f) ∈ m := by
  intro m
  induction m with
  | nil => intro k f h; simp [getKey] at h
  | cons p rest ih =>
    intro k f h
    obtain ⟨p1, p2⟩ := p
    by_cases hp : p1 = k
    · simp [getKey, hp] at h
      subst hp
      subst h
      exact List.mem_cons_self _ _
    · simp [getKey, hp] at h
      exact List.mem_cons_of_mem _ (ih k f h)

theorem mem_setKey {α : Type} :
    ∀ (m : List (String × α)) (k : String) (v : α) (q : String × α),
      q ∈ setKey m k v → q = (k, v) ∨ q ∈ m := by
  intro m
  induction m with
  | nil => intro k v q h; simp [setKey] at h; exact Or.inl h
  | cons p rest ih =>
    intro k v q h
    by_cases hp : p.1 = k
    · simp [setKey, hp] at h
      rcases h with h | h
      · exact Or.inl h
      · exact Or.inr (List.mem_cons_of_mem _ h)
    · simp [setKey, hp] at h
      rcases h with h | h
      · exact Or.inr (by simp [h])
      · rcases ih k v q h with h' | h'
        · exact Or.inl h'
        · exact Or.inr (List.mem_cons_of_mem _ h')

theorem setKey_of_getKey_none {α : Type} :
    ∀ (m : List (String × α)) (k : String) (v : α),
      getKey m k = none → setKey m k v = m ++ [(k, v)] := by
  intro m
  induction m with
  | nil => intro k v _; simp [setKey]
  | cons p rest ih =>
    intro k v h
    by_cases hp : p.1 = k
    · simp [getKey, hp] at h
    · simp [getKey, hp] at h
      simp [setKey, hp, ih k v h]

theorem getKey_mem_keys {α : Type} :
    ∀ (m : List (String × α)) (k : String) (f : α),
      getKey m k = some f → k ∈ m.map Prod.fst := by
  intro m k f h
  exact List.mem_map.mpr ⟨(k, f), getKey_mem m k f h, rfl⟩

/-! ### Percentage sums -/

theorem foldl_add_percent :
    ∀ (l : List ProfitDistribution) (init : ℚ),
      l.foldl (fun sum dist => sum + dist.percentage) init =
        init + (l.map ProfitDistribution.percentage).sum := by
  intro l
  induction l with
  | nil => intro init; simp
  | cons d tail ih => intro init; simp [ih]; ring

theorem sumPercent_eq (ds : List ProfitDistribution) :
    sumPercent ds = (ds.map ProfitDistribution.percentage).sum := by
  simpa [sumPercent] using foldl_add_percent ds 0

theorem sum_map_div_mul (c T : ℚ) :
    ∀ (l : List ℚ), (l.map (fun p => p / T * c)).sum = l.sum / T * c := by
  intro l
  induction l with
  | nil => simp
  | cons x tail ih => simp [ih]; ring

/-! ### Two-decimal rounding -/

/-- An amount that is a whole number of hundredths (cents). -/
def Cents (q : ℚ) : Prop := ∃ k : ℤ, q = (k : ℚ) / 100

theorem jsRound_intCast (k : ℤ) : jsRound (k : ℚ) = k := by
  simp only [jsRound, Rat.num_intCast, Rat.den_intCast, Nat.cast_one]
  rw [Int.fdiv_eq_ediv _ (by norm_num)]
  omega

theorem round2_cents (x : ℚ) : Cents (round2 x) := ⟨jsRound (x * 100), rfl⟩

theorem Cents.sub {a b : ℚ} (ha : Cents a) (hb : Cents b) : Cents (a - b) := by
  obtain ⟨k1, rfl⟩ := ha
  obtain ⟨k2, rfl⟩ := hb
  exact ⟨k1 - k2, by push_cast; ring⟩

theorem round2_eq_self {q : ℚ} (h : Cents q) : round2 q = q := by
  obtain ⟨k, rfl⟩ := h
  rw [round2, div_mul_cancel₀ _ (by norm_num : (100 : ℚ) ≠ 0), jsRound_intCast]

/-! ### The allocation loop, rewritten as the ordered allocation list -/

/-- The list of `(fundId, amount)` pairs the `distributeProfit` loop
produces, in distribution order: every entry but the last contributes
`round2(profit * percentage / 100)`, the last `round2(remaining)`. -/
def allocList (profit : ℚ) : List ProfitDistribution → ℚ → List (String × ℚ)
  | [], _ => []
  | [d], remaining => [(d.fundId, round2 remaining)]
  | d :: d2 :: rest, remaining =>
    (d.fundId, round2 (profit * d.percentage / 100)) ::
      allocList profit (d2 :: rest) (remaining - round2 (profit * d.percentage / 100))

theorem allocList_ne_nil (profit : ℚ) (ds : List ProfitDistribution) (rem : ℚ)
    (h : ds ≠ []) : allocList profit ds rem ≠ [] := by
  cases ds with
  | nil => exact absurd rfl h
  | cons d tail => cases tail <;> simp [allocList]

theorem distributeProfitGo_eq_append (profit : ℚ) :
    ∀ (ds : List ProfitDistribution) (rem : ℚ) (acc : List (String × ℚ)),
      (∀ d ∈ ds, getKey acc d.fundId = none) →
      (ds.map ProfitDistribution.fundId).Nodup →
      distributeProfitGo profit ds rem acc = acc ++ allocList profit ds rem := by
  intro ds
  induction ds with
  | nil => intro rem acc _ _; simp [distributeProfitGo, allocList]
  | cons d tail ih =>
    intro rem acc hfresh hnodup
    cases tail with
    | nil =>
      simp only [distributeProfitGo, allocList]
      exact setKey_of_getKey_none _ _ _ (hfresh d (by simp))
    | cons d2 rest =>
      have hd : d.fundId ∉ (d2 :: rest).map ProfitDistribution.fundId :=
        (List.nodup_cons.mp hnodup).1
      have hfresh' : ∀ d' ∈ d2 :: rest,
          getKey (setKey acc d.fundId (round2 (profit * d.percentage / 100))) d'.fundId = none := by
        intro d' hd'
        have hne : d'.fundId ≠ d.fundId := by
          intro he
          exact hd (he ▸ List.mem_map.mpr ⟨d', hd', rfl⟩)
        rw [getKey_setKey_ne _ _ _ _ hne]
        exact hfresh d' (List.mem_cons_of_mem _ hd')
      simp only [distributeProfitGo, allocList]
      rw [ih _ _ hfresh' (List.nodup_cons.mp hnodup).2,
        setKey_of_getKey_none _ _ _ (hfresh d (by simp)), List.append_assoc]
      rfl

theorem allocList_sum (profit : ℚ) :
    ∀ (ds : List ProfitDistribution) (rem : ℚ), ds ≠ [] → Cents rem →
      ((allocList profit ds rem).map Prod.snd).sum = rem := by
  intro ds
  induction ds with
  | nil => intro rem h _; exact absurd rfl h
  | cons d tail ih =>
    intro rem _ hc
    cases tail with
    | nil => simp [allocList, round2_eq_self hc]
    | cons d2 rest =>
      simp only [allocList, List.map_cons, List.sum_cons]
      rw [ih _ (by simp) (hc.sub (round2_cents _))]
      ring

theorem allocList_fst (profit : ℚ) :
    ∀ (ds : List ProfitDistribution) (rem : ℚ),
      (allocList profit ds rem).map Prod.fst = ds.map ProfitDistribution.fundId := by
  intro ds
  induction ds with
  | nil => intro rem; simp [allocList]
  | cons d tail ih =>
    intro rem
    cases tail with
    | nil => simp [allocList]
    | cons d2 rest => simp only [allocList, List.map_cons, ih]

theorem allocList_dropLast (profit : ℚ) :
    ∀ (ds : List ProfitDistribution) (rem : ℚ),
      (allocList profit ds rem).dropLast =
        ds.dropLast.map (fun d => (d.fundId, round2 (profit * d.percentage / 100))) := by
  intro ds
  induction ds with
  | nil => intro rem; simp [allocList]
  | cons d tail ih =>
    intro rem
    cases tail with
    | nil => simp [allocList]
    | cons d2 rest =>
      simp only [allocList]
      rw [List.dropLast_cons_of_ne_nil (allocList_ne_nil profit _ _ (by simp)),
        List.dropLast_cons_of_ne_nil (by simp : (d2 :: rest : List ProfitDistribution) ≠ []),
        List.map_cons]
      exact congrArg _ (ih _)

/-! ### The balance invariant and counter monotonicity -/

/-- `currentBalance = lifetimeInflow − lifetimeOutflow` for one fund. -/
def FundInv (f : Fund) : Prop :=
  f.currentBalance = f.lifetimeInflow - f.lifetimeOutflow

/-- Every fund of the collection satisfies `FundInv`. -/
def FundsInv (m : List (String × Fund)) : Prop := ∀ p ∈ m, FundInv p.2

theorem fundsInv_setKey {m : List (String × Fund)} {k : String} {f : Fund}
    (hm : FundsInv m) (hf : FundInv f) : FundsInv (setKey m k f) := by
  intro p hp
  rcases mem_setKey m k f p hp with h | h
  · rw [h]; exact hf
  · exact hm p h

theorem fundsInv_getKey {m : List (String × Fund)} {k : String} {f : Fund}
    (hm : FundsInv m) (h : getKey m k = some f) : FundInv f :=
  hm (k, f) (getKey_mem m k f h)

theorem applyIncomeAllocations_cons (funds : List (String × Fund))
    (pa : String × ℚ) (rest : List (String × ℚ)) (now : ℕ) :
    applyIncomeAllocations funds (pa :: rest) now =
      applyIncomeAllocations
        (match getKey funds pa.1 with
         | some f =>
           setKey funds pa.1
             { f with
               currentBalance := f.currentBalance + pa.2
               lifetimeInflow := f.lifetimeInflow + pa.2
               updatedAt := now }
         | none => funds)
        rest now := rfl

theorem applyIncomeAllocations_inv :
    ∀ (allocs : List (String × ℚ)) (funds : List (String × Fund)) (now : ℕ),
      FundsInv funds → FundsInv (applyIncomeAllocations funds allocs now) := by
  intro allocs
  induction allocs with
  | nil => intro funds now h; exact h
  | cons pa rest ih =>
    intro funds now h
    rw [applyIncomeAllocations_cons]
    cases hk : getKey funds pa.1 with
    | none => simpa [hk] using ih funds now h
    | some f =>
      simp only [hk]
      refine ih _ now (fundsInv_setKey h ?_)
      have := fundsInv_getKey h hk
      simp only [FundInv] at this ⊢
      rw [this]; ring

/-- Per-fund monotonicity of the lifetime counters between two
collections: every fund of the new collection was already present and its
counters did not shrink. -/
def counterLE (m m' : List (String × Fund)) : Prop :=
  ∀ k f', getKey m' k = some f' → ∃ f, getKey m k = some f ∧
    f.lifetimeInflow ≤ f'.lifetimeInflow ∧ f.lifetimeOutflow ≤ f'.lifetimeOutflow

theorem counterLE_refl (m : List (String × Fund)) : counterLE m m :=
  fun k f' h => ⟨f', h, le_refl _, le_refl _⟩

theorem counterLE_trans {a b c : List (String × Fund)}
    (h1 : counterLE a b) (h2 : counterLE b c) : counterLE a c := by
  intro k f' h
  obtain ⟨fb, hb, hb1, hb2⟩ := h2 k f' h
  obtain ⟨fa, ha, ha1, ha2⟩ := h1 k fb hb
  exact ⟨fa, ha, le_trans ha1 hb1, le_trans ha2 hb2⟩

theorem counterLE_setKey {m : List (String × Fund)} {k : String} {f f' : Fund}
    (hk : getKey m k = some f)
    (h1 : f.lifetimeInflow ≤ f'.lifetimeInflow)
    (h2 : f.lifetimeOutflow ≤ f'.lifetimeOutflow) :
    counterLE m (setKey m k f') := by
  intro k' g hg
  by_cases he : k' = k
  · subst he
    rw [getKey_setKey_self] at hg
    cases hg
    exact ⟨f, hk, h1, h2⟩
  · rw [getKey_setKey_ne _ _ _ _ he] at hg
    exact ⟨g, hg, le_refl _, le_refl _⟩

theorem applyIncomeAllocations_counterLE :
    ∀ (allocs : List (String × ℚ)) (funds : List (String × Fund)) (now : ℕ),
      (∀ pa ∈ allocs, 0 ≤ pa.2) →
      counterLE funds (applyIncomeAllocations funds allocs now) := by
  intro allocs
  induction allocs with
  | nil => intro funds now _; exact counterLE_refl funds
  | cons pa rest ih =>
    intro funds now hpos
    rw [applyIncomeAllocations_cons]
    cases hk : getKey funds pa.1 with
    | none =>
      simpa [hk] using ih funds now (fun q hq => hpos q (List.mem_cons_of_mem _ hq))
    | some f =>
      simp only [hk]
      refine counterLE_trans ?_ (ih _ now (fun q hq => hpos q (List.mem_cons_of_mem _ hq)))
      refine counterLE_setKey hk ?_ (le_refl _)
      simpa using hpos pa (List.mem_cons_self _ _)

theorem getKey_removeKey {α : Type} :
    ∀ (m : List (String × α)) (k k' : String),
      getKey (removeKey m k) k' = if k' = k then none else getKey m k' := by
  intro m
  induction m with
  | nil => intro k k'; simp [removeKey, getKey]
  | cons p rest ih =>
    intro k k'
    by_cases hp : p.1 = k
    · simp only [removeKey, List.filter_cons] at *
      rw [if_neg (by simp [hp])]
      rw [ih k k']
      by_cases he : k' = k
      · simp [he]
      · simp [he, getKey, show ¬ p.1 = k' from by rw [hp]; exact fun hh => he hh.symm]
    · simp only [removeKey, List.filter_cons] at *
      rw [if_pos (by simp [hp])]
      by_cases hq : p.1 = k'
      · have he : ¬ k' = k := by rw [← hq]; exact hp
        simp [getKey, hq, he]
      · simp only [getKey, if_neg hq]
        exact ih k k'

theorem getKey_applyIncomeAllocations_none :
    ∀ (allocs : List (String × ℚ)) (funds : List (String × Fund)) (now : ℕ) (k : String),
      getKey funds k = none →
      getKey (applyIncomeAllocations funds allocs now) k = none := by
  intro allocs
  induction allocs with
  | nil => intro funds now k h; exact h
  | cons pa rest ih =>
    intro funds now k h
    rw [applyIncomeAllocations_cons]
    cases hk : getKey funds pa.1 with
    | none => simpa [hk] using ih funds now k h
    | some f =>
      simp only [hk]
      refine ih _ now k ?_
      have hne : k ≠ pa.1 := by
        intro he
        rw [he, hk] at h
        exact Option.noConfusion h
      rw [getKey_setKey_ne _ _ _ _ hne]
      exact h

/-! ### Claim C4 -/

/-- Claim C4 (amended): `distributeProfit` rejects, allocating nothing,
exactly when the percentage total is more than `0.01` away from `100`,
and the check precedes any allocation; the singleton `{100}` is valid and
the empty distribution is invalid for every profit. (The claim's example
`{60, 39.99}` sums to `99.99`, which IS within the `0.01` tolerance and
is accepted — see the counterexample.) -/
theorem claim4_rejects_iff_out_of_tolerance :
    (∀ (profit : ℚ) (ds : List ProfitDistribution),
        (∃ e, distributeProfit profit ds = .error e) ↔ |sumPercent ds - 100| > 1/100) ∧
    (validateProfitDistribution [⟨"f", 100⟩]).isValid = true ∧
    (∀ profit : ℚ, ∃ e, distributeProfit profit [] = .error e) := by
  refine ⟨?_, ?_, ?_⟩
  · intro profit ds
    constructor
    · rintro ⟨e, he⟩
      by_contra hle
      simp only [distributeProfit, validateProfitDistribution] at he
      rw [if_neg hle] at he
      simp at he
    · intro hgt
      refine ⟨"Profit distribution must sum to 100%", ?_⟩
      simp only [distributeProfit, validateProfitDistribution]
      rw [if_pos hgt]
      rfl
  · norm_num [validateProfitDistribution, sumPercent]
  · intro profit
    refine ⟨"Profit distribution must sum to 100%", ?_⟩
    simp only [distributeProfit, validateProfitDistribution]
    rw [if_pos (show |sumPercent ([] : List ProfitDistribution) - 100| > 1/100 by
      norm_num [sumPercent, lt_abs])]
    rfl

/-- Claim C4, counterexample to the claim as stated: the distribution
`[{a,60},{b,39.99}]` (total `99.99`) is NOT rejected — `distributeProfit`
accepts it and allocates `{a: 60, b: 40}`. -/
theorem claim4_cex :
    sumPercent [⟨"a", 60⟩, ⟨"b", 3999/100⟩] = 9999/100 ∧
    distributeProfit 100 [⟨"a", 60⟩, ⟨"b", 3999/100⟩] = .ok [("a", 60), ("b", 40)] := by
  have r60 : round2 (60 : ℚ) = 60 := round2_eq_self ⟨6000, by norm_num⟩
  have r40 : round2 (40 : ℚ) = 40 := round2_eq_self ⟨4000, by norm_num⟩
  constructor
  · norm_num [sumPercent]
  · norm_num [distributeProfit, validateProfitDistribution, sumPercent, lt_abs,
      distributeProfitGo, setKey, r60, r40]
    decide

/-! ### Claim C1 -/

/-- Claim C1 (amended): for every profit that is a whole number of cents
and every distribution with pairwise-distinct fund ids whose percentages
pass `validateProfitDistribution`, `distributeProfit` succeeds and the
allocated amounts sum exactly to the profit; every entry except the last
receives `round2(profit * percentage / 100)` (the `dropLast`
characterization), so the last entry absorbs the remainder exactly. -/
theorem claim1_conservation (profit : ℚ) (ds : List ProfitDistribution)
    (hcents : Cents profit)
    (hnodup : (ds.map ProfitDistribution.fundId).Nodup)
    (hvalid : (validateProfitDistribution ds).isValid = true) :
    ∃ res, distributeProfit profit ds = .ok res ∧
      res.map Prod.fst = ds.map ProfitDistribution.fundId ∧
      res.dropLast = ds.dropLast.map
        (fun d => (d.fundId, round2 (profit * d.percentage / 100))) ∧
      (res.map Prod.snd).sum = profit := by
  have hne : ds ≠ [] := by
    rintro rfl
    norm_num [validateProfitDistribution, sumPercent, lt_abs] at hvalid
  refine ⟨allocList profit ds profit, ?_, allocList_fst profit ds profit,
    allocList_dropLast profit ds profit, allocList_sum profit ds profit hne hcents⟩
  rw [show distributeProfit profit ds =
      (if (validateProfitDistribution ds).isValid then
        .ok (distributeProfitGo profit ds profit [])
      else .error ((validateProfitDistribution ds).error.getD
        "Invalid profit distribution")) from rfl, hvalid, if_pos rfl,
    distributeProfitGo_eq_append profit ds profit []
      (fun d _ => rfl) hnodup]
  rfl

/-- Claim C1 witness: the spec's scenario 1 — profit `600` against
`[{A,50},{B,50}]` allocates `{A: 300, B: 300}`, total `600`. -/
theorem claim1_witness :
    Cents (600 : ℚ) ∧
    (([⟨"A", 50⟩, ⟨"B", 50⟩] : List ProfitDistribution).map
      ProfitDistribution.fundId).Nodup ∧
    (validateProfitDistribution [⟨"A", 50⟩, ⟨"B", 50⟩]).isValid = true ∧
    (∃ res, distributeProfit 600 [⟨"A", 50⟩, ⟨"B", 50⟩] = .ok res ∧
      res.map Prod.fst =
        ([⟨"A", 50⟩, ⟨"B", 50⟩] : List ProfitDistribution).map
          ProfitDistribution.fundId ∧
      res.dropLast = ([⟨"A", 50⟩, ⟨"B", 50⟩] :
          List ProfitDistribution).dropLast.map
        (fun d => (d.fundId, round2 (600 * d.percentage / 100))) ∧
      (res.map Prod.snd).sum = 600) :=
  ⟨⟨60000, by norm_num⟩, by simp, by norm_num [validateProfitDistribution, sumPercent],
    claim1_conservation 600 [⟨"A", 50⟩, ⟨"B", 50⟩] ⟨60000, by norm_num⟩ (by simp)
      (by norm_num [validateProfitDistribution, sumPercent])⟩

/-- Claim C1, counterexample to the claim as stated: for a profit that is
not a whole number of cents the rounding of the last entry breaks exact
conservation — profit `0.005` against the singleton `{A,100}` allocates
`{A: 0.01}`, and `0.01 ≠ 0.005`. -/
theorem claim1_cex :
    distributeProfit (1/200) [⟨"A", 100⟩] = .ok [("A", 1/100)] ∧
    ¬ ((([("A", (1:ℚ)/100)]).map Prod.snd).sum = 1/200) := by
  constructor
  · norm_num [distributeProfit, validateProfitDistribution, sumPercent, lt_abs,
      distributeProfitGo, setKey, round2, jsRound]
  · norm_num

/-! ### Claim C2 -/

/-- Claim C2: every engine operation that touches funds — applying a
transaction, creating a fund, deleting a fund — preserves
`currentBalance = lifetimeInflow − lifetimeOutflow` for every fund of the
resulting collection. -/
theorem claim2_balance_invariant (st : FinancialState) (t : Transaction)
    (ds : List ProfitDistribution) (newId fundName fundDescription : String)
    (color : Option String) (fundId : String) (now : ℕ)
    (hinv : FundsInv st.funds) :
    (∀ funds', applyTransactionToFunds st.funds t ds now = .ok funds' →
      FundsInv funds') ∧
    FundsInv (createFund st newId fundName fundDescription color now).funds ∧
    (∀ st', deleteFund st fundId now = .ok st' → FundsInv st'.funds) := by
  refine ⟨?_, ?_, ?_⟩
  · intro funds' h
    unfold applyTransactionToFunds at h
    cases htt : t.type with
    | INCOME =>
      simp only [htt] at h
      cases hc : t.costOfProduction with
      | none => simp only [hc] at h; exact Except.noConfusion h
      | some cost =>
        simp only [hc] at h
        cases hcp : calculateProfit t.amount cost with
        | error e => simp only [hcp] at h; exact Except.noConfusion h
        | ok profit =>
          simp only [hcp] at h
          cases hdp : distributeProfit profit ds with
          | error e => simp only [hdp] at h; exact Except.noConfusion h
          | ok res =>
            simp only [hdp] at h
            injection h with h
            subst h
            exact applyIncomeAllocations_inv res st.funds now hinv
    | EXPENSE =>
      simp only [htt] at h
      cases hs : t.sourceFundId with
      | none => simp only [hs] at h; injection h with h; subst h; exact hinv
      | some s =>
        simp only [hs] at h
        by_cases hse : s = ""
        · rw [if_pos hse] at h; injection h with h; subst h; exact hinv
        · rw [if_neg hse] at h
          cases hf : getKey st.funds s with
          | none => simp only [hf] at h; injection h with h; subst h; exact hinv
          | some f =>
            simp only [hf] at h
            injection h with h
            subst h
            refine fundsInv_setKey hinv ?_
            have hfi := fundsInv_getKey hinv hf
            simp only [FundInv] at hfi ⊢
            rw [hfi]; ring
  · intro p hp
    simp only [createFund] at hp
    rcases mem_setKey _ _ _ p hp with h | h
    · rw [h]; simp [FundInv]
    · exact hinv p h
  · intro st' h
    unfold deleteFund at h
    cases hf : getKey st.funds fundId with
    | none => simp only [hf] at h; exact Except.noConfusion h
    | some f =>
      simp only [hf] at h
      by_cases hb : f.currentBalance > 0
      · rw [if_pos hb] at h; exact Except.noConfusion h
      · rw [if_neg hb] at h
        by_cases ha : (st.transactions.any
            fun t => decide (t.type = .EXPENSE ∧ t.sourceFundId = some fundId)) = true
        · rw [if_pos ha] at h; exact Except.noConfusion h
        · rw [if_neg ha] at h
          injection h with h
          subst h
          intro p hp
          exact hinv p (List.mem_filter.mp hp).1

/-- Claim C2 witness data: a one-fund state satisfying the invariant. -/
def fundZero : Fund :=
  { id := "a", name := "A", description := "", currentBalance := 0,
    lifetimeInflow := 0, lifetimeOutflow := 0, createdAt := 0, updatedAt := 0 }

/-- Claim C2 witness data: the state holding `fundZero` alone. -/
def stateZero : FinancialState :=
  { funds := [("a", fundZero)], transactions := [], profitDistribution := [⟨"a", 100⟩],
    taxEnabled := false, lastUpdated := 0 }

/-- Claim C2 witness data: an expense transaction against `fundZero`. -/
def expenseZero : Transaction :=
  { id := "t1", type := .EXPENSE, amount := 5, date := 0, description := "",
    sourceFundId := some "a", createdAt := 0, updatedAt := 0 }

/-- Claim C2 witness: the invariant-preservation theorem applied to the
concrete one-fund state. -/
theorem claim2_witness :
    FundsInv stateZero.funds ∧
    ((∀ funds', applyTransactionToFunds stateZero.funds expenseZero [⟨"a", 100⟩] 1 =
        .ok funds' → FundsInv funds') ∧
      FundsInv (createFund stateZero "b" "B" "" none 1).funds ∧
      (∀ st', deleteFund stateZero "a" 1 = .ok st' → FundsInv st'.funds)) := by
  have hinv : FundsInv stateZero.funds := by
    intro p hp
    simp only [stateZero, List.mem_singleton] at hp
    subst hp
    norm_num [FundInv, fundZero]
  exact ⟨hinv, claim2_balance_invariant stateZero expenseZero [⟨"a", 100⟩]
    "b" "B" "" none "a" 1 hinv⟩

/-! ### Validation facts -/

theorem valid_facts {t : Transaction} {funds : List (String × Fund)} {now : ℕ}
    (h : (validateTransaction t funds now).isValid = true) :
    0 < t.amount ∧ t.date ≤ now ∧
    (t.type = .INCOME → ∃ c, t.costOfProduction = some c ∧ 0 ≤ c ∧ c ≤ t.amount) ∧
    (t.type = .EXPENSE → ∃ s f, t.sourceFundId = some s ∧ s ≠ "" ∧
      getKey funds s = some f ∧ t.amount ≤ f.currentBalance) := by
  by_cases h1 : t.amount ≤ 0
  · simp [validateTransaction, h1] at h
  by_cases h2 : now < t.date
  · simp [validateTransaction, h1, h2] at h
  refine ⟨lt_of_not_le h1, le_of_not_lt h2, ?_, ?_⟩
  · intro hty
    cases hc : t.costOfProduction with
    | none => simp [validateTransaction, h1, h2, hty, hc] at h
    | some c =>
      by_cases h3 : c < 0
      · simp [validateTransaction, h1, h2, hty, hc, h3] at h
      by_cases h4 : c > t.amount
      · simp [validateTransaction, h1, h2, hty, hc, h3, h4] at h
      exact ⟨c, rfl, le_of_not_lt h3, le_of_not_lt h4⟩
  · intro hty
    cases hs : t.sourceFundId with
    | none => simp [validateTransaction, h1, h2, hty, hs] at h
    | some s =>
      by_cases hse : s = ""
      · simp [validateTransaction, h1, h2, hty, hs, hse] at h
      cases hf : getKey funds s with
      | none => simp [validateTransaction, h1, h2, hty, hs, hse, hf] at h
      | some f =>
        by_cases hb : f.currentBalance < t.amount
        · simp [validateTransaction, h1, h2, hty, hs, hse, hf, hb] at h
        exact ⟨s, f, rfl, hse, hf, le_of_not_lt hb⟩

/-! ### Claim C3 -/

/-- Every branch of `validateTransaction` yields either a clean pass or a
failure carrying a reason. -/
theorem validateTransaction_shape (t : Transaction) (funds : List (String × Fund))
    (now : ℕ) :
    validateTransaction t funds now = ⟨true, none⟩ ∨
      ∃ m, validateTransaction t funds now = ⟨false, some m⟩ := by
  unfold validateTransaction
  repeat' first
    | split
    | (left; rfl)
    | (right; exact ⟨_, rfl⟩)

/-- The rejection causes named by claim C3: non-positive amount, future
date, missing or invalid income cost, missing/empty/unknown source fund,
or insufficient balance. -/
def RejectCause (t : Transaction) (funds : List (String × Fund)) (now : ℕ) : Prop :=
  t.amount ≤ 0 ∨ now < t.date ∨
  (t.type = .INCOME ∧ (t.costOfProduction = none ∨
    ∃ c, t.costOfProduction = some c ∧ (c < 0 ∨ t.amount < c))) ∨
  (t.type = .EXPENSE ∧ (t.sourceFundId = none ∨ t.sourceFundId = some "" ∨
    (∃ s, t.sourceFundId = some s ∧ getKey funds s = none) ∨
    (∃ s f, t.sourceFundId = some s ∧ getKey funds s = some f ∧
      f.currentBalance < t.amount)))

/-- Claim C3: every request hit by a rejection cause is refused by
validation with a reason, and `addTransaction` then throws — it produces
no successor state at all, so the fund collection and transaction list
are untouched (all-or-nothing mutation). -/
theorem claim3_rejection_no_mutation (st : FinancialState) (td : Transaction)
    (newId : String) (now : ℕ) (hc : RejectCause td st.funds now) :
    (validateTransaction td st.funds now).isValid = false ∧
    (validateTransaction td st.funds now).error.isSome = true ∧
    ∃ e, addTransaction st td newId now = .error e := by
  have hval : (validateTransaction td st.funds now).isValid = false := by
    cases hv : (validateTransaction td st.funds now).isValid
    · rfl
    · exfalso
      obtain ⟨h1, h2, h3, h4⟩ := valid_facts hv
      rcases hc with h | h | ⟨hty, hcc⟩ | ⟨hty, hcc⟩
      · exact absurd h (not_le.mpr h1)
      · exact absurd h (not_lt.mpr h2)
      · obtain ⟨c, hceq, hc0, hcle⟩ := h3 hty
        rcases hcc with hnone | ⟨c', hc', hbad⟩
        · rw [hceq] at hnone; exact Option.noConfusion hnone
        · rw [hceq] at hc'
          injection hc' with hc'
          subst hc'
          rcases hbad with hb | hb
          · exact absurd hb (not_lt.mpr hc0)
          · exact absurd hb (not_lt.mpr hcle)
      · obtain ⟨s, f, hseq, hsne, hfeq, hble⟩ := h4 hty
        rcases hcc with hnone | hemp | ⟨s', hs', hgn⟩ | ⟨s', f', hs', hgf, hlt⟩
        · rw [hseq] at hnone; exact Option.noConfusion hnone
        · rw [hseq] at hemp
          injection hemp with hemp
          exact hsne hemp
        · rw [hseq] at hs'
          injection hs' with hs'
          subst hs'
          rw [hfeq] at hgn
          exact Option.noConfusion hgn
        · rw [hseq] at hs'
          injection hs' with hs'
          subst hs'
          rw [hfeq] at hgf
          injection hgf with hgf
          subst hgf
          exact absurd hlt (not_lt.mpr hble)
  refine ⟨hval, ?_, ?_⟩
  · rcases validateTransaction_shape td st.funds now with h | ⟨m, h⟩
    · rw [h] at hval; exact absurd hval (by simp)
    · rw [h]; rfl
  · refine ⟨(validateTransaction td st.funds now).error.getD "", ?_⟩
    simp only [addTransaction]
    rw [if_pos hval]

/-- Claim C3 witness data: an expense request with a negative amount. -/
def rejectedTd : Transaction :=
  { id := "", type := .EXPENSE, amount := -5, date := 0, description := "",
    sourceFundId := some "a", createdAt := 0, updatedAt := 0 }

/-- Claim C3 witness: the rejected request leaves `stateZero` untouched. -/
theorem claim3_witness :
    RejectCause rejectedTd stateZero.funds 0 ∧
    ((validateTransaction rejectedTd stateZero.funds 0).isValid = false ∧
      (validateTransaction rejectedTd stateZero.funds 0).error.isSome = true ∧
      ∃ e, addTransaction stateZero rejectedTd "t9" 0 = .error e) :=
  ⟨Or.inl (by norm_num [rejectedTd]),
    claim3_rejection_no_mutation stateZero rejectedTd "t9" 0
      (Or.inl (by norm_num [rejectedTd]))⟩

/-! ### Claim C5 -/

/-- Claim C5: applying a validated EXPENSE transaction debits exactly the
source fund — its balance drops by the amount, its lifetime outflow grows
by the amount, its lifetime inflow is untouched — and every other fund is
returned unchanged, every field included. -/
theorem claim5_expense_frame (funds : List (String × Fund)) (t : Transaction)
    (ds : List ProfitDistribution) (now checkNow : ℕ) (s : String) (f : Fund)
    (htype : t.type = .EXPENSE)
    (hvalid : (validateTransaction t funds checkNow).isValid = true)
    (hs : t.sourceFundId = some s)
    (hf : getKey funds s = some f) :
    applyTransactionToFunds funds t ds now =
      .ok (setKey funds s
        { f with
          currentBalance := f.currentBalance - t.amount
          lifetimeOutflow := f.lifetimeOutflow + t.amount
          updatedAt := now }) ∧
    getKey (setKey funds s
        { f with
          currentBalance := f.currentBalance - t.amount
          lifetimeOutflow := f.lifetimeOutflow + t.amount
          updatedAt := now }) s =
      some { f with
             currentBalance := f.currentBalance - t.amount
             lifetimeOutflow := f.lifetimeOutflow + t.amount
             updatedAt := now } ∧
    ∀ k, k ≠ s → getKey (setKey funds s
        { f with
          currentBalance := f.currentBalance - t.amount
          lifetimeOutflow := f.lifetimeOutflow + t.amount
          updatedAt := now }) k =
      getKey funds k := by
  obtain ⟨_, _, _, h4⟩ := valid_facts hvalid
  obtain ⟨s', f', hs', hsne, hf', _⟩ := h4 htype
  rw [hs] at hs'
  injection hs' with hs'
  subst hs'
  refine ⟨?_, getKey_setKey_self _ _ _, fun k hk => getKey_setKey_ne _ _ _ _ hk⟩
  unfold applyTransactionToFunds
  simp only [htype, hs]
  rw [if_neg hsne]
  simp only [hf]

/-- Claim C5 witness data: a fund holding a balance of 50. -/
def fundFifty : Fund :=
  { id := "a", name := "A", description := "", currentBalance := 50,
    lifetimeInflow := 50, lifetimeOutflow := 0, createdAt := 0, updatedAt := 0 }

/-- Claim C5 witness data: a 20-unit expense drawn from `fundFifty`. -/
def expenseTwenty : Transaction :=
  { id := "t3", type := .EXPENSE, amount := 20, date := 0, description := "",
    sourceFundId := some "a", createdAt := 0, updatedAt := 0 }

/-- Claim C5 witness: the frame theorem applied to the 20-unit expense
against the 50-balance fund. -/
theorem claim5_witness :
    (validateTransaction expenseTwenty [("a", fundFifty)] 0).isValid = true ∧
    (applyTransactionToFunds [("a", fundFifty)] expenseTwenty [] 1 =
      .ok (setKey [("a", fundFifty)] "a"
        { fundFifty with
          currentBalance := fundFifty.currentBalance - expenseTwenty.amount
          lifetimeOutflow := fundFifty.lifetimeOutflow + expenseTwenty.amount
          updatedAt := 1 }) ∧
      getKey (setKey [("a", fundFifty)] "a"
        { fundFifty with
          currentBalance := fundFifty.currentBalance - expenseTwenty.amount
          lifetimeOutflow := fundFifty.lifetimeOutflow + expenseTwenty.amount
          updatedAt := 1 }) "a" =
        some { fundFifty with
               currentBalance := fundFifty.currentBalance - expenseTwenty.amount
               lifetimeOutflow := fundFifty.lifetimeOutflow + expenseTwenty.amount
               updatedAt := 1 } ∧
      ∀ k, k ≠ "a" → getKey (setKey [("a", fundFifty)] "a"
        { fundFifty with
          currentBalance := fundFifty.currentBalance - expenseTwenty.amount
          lifetimeOutflow := fundFifty.lifetimeOutflow + expenseTwenty.amount
          updatedAt := 1 }) k =
        getKey [("a", fundFifty)] k) :=
  ⟨by norm_num [validateTransaction, expenseTwenty, fundFifty, getKey,
      show (("a" : String) = "") = False from eq_false (by decide)],
    claim5_expense_frame [("a", fundFifty)] expenseTwenty [] 1 0 "a" fundFifty
      rfl (by norm_num [validateTransaction, expenseTwenty, fundFifty, getKey,
        show (("a" : String) = "") = False from eq_false (by decide)]) rfl rfl⟩

/-! ### Claim C6 -/

/-- Claim C6 (amended): for a distribution that does not contain the tax
fund and whose percentages sum exactly to `100`, enabling and then
disabling the tax toggle returns exactly the original distribution (so in
particular every percentage is within any tolerance of the original). -/
theorem claim6_tax_toggle_roundtrip (st : FinancialState) (now1 now2 : ℕ)
    (hsum : sumPercent st.profitDistribution = 100)
    (hnotax : ∀ d ∈ st.profitDistribution, d.fundId ≠ "taxes") :
    (toggleTaxFund (toggleTaxFund st true now1) false now2).profitDistribution =
      st.profitDistribution := by
  have henb : (toggleTaxFund st true now1).profitDistribution =
      st.profitDistribution.map
        (fun d => { d with percentage := d.percentage / sumPercent st.profitDistribution * 95 }) ++
      [⟨"taxes", 5⟩] := rfl
  have hdis : ∀ st2 : FinancialState,
      (toggleTaxFund st2 false now2).profitDistribution =
        (st2.profitDistribution.filter (fun d => decide (d.fundId ≠ "taxes"))).map
          (fun d => { d with percentage := (d.percentage / sumPercent (st2.profitDistribution.filter (fun d => decide (d.fundId ≠ "taxes"))) * 100) }) :=
    fun _ => rfl
  rw [hdis, henb, hsum]
  have hfil :
      (st.profitDistribution.map
          (fun d : ProfitDistribution => { d with percentage := d.percentage / 100 * 95 }) ++
        [(⟨"taxes", 5⟩ : ProfitDistribution)]).filter
          (fun d => decide (d.fundId ≠ "taxes")) =
      st.profitDistribution.map
        (fun d : ProfitDistribution => { d with percentage := d.percentage / 100 * 95 }) := by
    rw [List.filter_append]
    have h2 : List.filter (fun d => decide (d.fundId ≠ "taxes"))
        [(⟨"taxes", 5⟩ : ProfitDistribution)] = [] := rfl
    have h1 : List.filter (fun d => decide (d.fundId ≠ "taxes"))
        (st.profitDistribution.map
          (fun d => { d with percentage := d.percentage / 100 * 95 })) =
        st.profitDistribution.map
          (fun d => { d with percentage := d.percentage / 100 * 95 }) := by
      rw [List.filter_eq_self]
      intro d hd
      obtain ⟨d0, hd0, rfl⟩ := List.mem_map.mp hd
      simpa using hnotax d0 hd0
    rw [h1, h2, List.append_nil]
  rw [hfil]
  have hsum2 : sumPercent (st.profitDistribution.map
      (fun d => { d with percentage := d.percentage / 100 * 95 })) = 95 := by
    rw [sumPercent_eq, List.map_map]
    rw [show (ProfitDistribution.percentage ∘
        fun d => { d with percentage := d.percentage / 100 * 95 }) =
      ((fun p => p / 100 * 95) ∘ ProfitDistribution.percentage) from rfl]
    rw [← List.map_map, sum_map_div_mul, ← sumPercent_eq, hsum]
    norm_num
  rw [hsum2, List.map_map]
  have hid : ∀ d ∈ st.profitDistribution,
      ((fun d => { d with percentage := d.percentage / 95 * 100 }) ∘
        (fun d => { d with percentage := d.percentage / 100 * 95 })) d = d := by
    intro d _
    cases d with
    | mk fid p =>
      simp only [Function.comp]
      congr 1
      ring
  calc st.profitDistribution.map _ = st.profitDistribution.map id :=
        List.map_congr_left hid
    _ = st.profitDistribution := List.map_id _

/-- Claim C6 witness data: a two-fund distribution summing to 100. -/
def stSixtyForty : FinancialState :=
  { funds := [], transactions := [], profitDistribution := [⟨"A", 60⟩, ⟨"B", 40⟩],
    taxEnabled := false, lastUpdated := 0 }

/-- Claim C6 witness: the round trip on `[{A,60},{B,40}]` restores the
distribution exactly. -/
theorem claim6_witness :
    sumPercent stSixtyForty.profitDistribution = 100 ∧
    (∀ d ∈ stSixtyForty.profitDistribution, d.fundId ≠ "taxes") ∧
    (toggleTaxFund (toggleTaxFund stSixtyForty true 1) false 2).profitDistribution =
      stSixtyForty.profitDistribution :=
  ⟨by norm_num [sumPercent, stSixtyForty],
    by intro d hd; simp [stSixtyForty] at hd; rcases hd with rfl | rfl <;> decide,
    claim6_tax_toggle_roundtrip stSixtyForty 1 2
      (by norm_num [sumPercent, stSixtyForty])
      (by intro d hd; simp [stSixtyForty] at hd; rcases hd with rfl | rfl <;> decide)⟩

/-- Claim C6 counterexample data: a positive-sum distribution whose
percentages sum to 50, not 100. -/
def stHalf : FinancialState :=
  { funds := [], transactions := [], profitDistribution := [⟨"A", 50⟩],
    taxEnabled := false, lastUpdated := 0 }

/-- Claim C6, counterexample to the claim as stated: `[{A,50}]` has a
positive sum and no tax entry, yet the enable-disable round trip returns
`[{A,100}]` — off from the original `50` by far more than `0.01`. -/
theorem claim6_cex :
    0 < sumPercent stHalf.profitDistribution ∧
    (∀ d ∈ stHalf.profitDistribution, d.fundId ≠ "taxes") ∧
    (toggleTaxFund (toggleTaxFund stHalf true 1) false 2).profitDistribution =
      [⟨"A", 100⟩] ∧
    ¬ |(100 : ℚ) - 50| ≤ 1/100 := by
  refine ⟨by norm_num [sumPercent, stHalf], ?_, ?_, by norm_num [abs_of_nonneg]⟩
  · intro d hd
    simp [stHalf] at hd
    subst hd
    decide
  · simp only [toggleTaxFund, stHalf]
    simp [sumPercent]

/-! ### Claim C7 -/

/-- Claim C7 data: a distribution whose rescale base (the pre-toggle
percentage sum) is zero. -/
def stZeroBase : FinancialState :=
  { funds := [], transactions := [], profitDistribution := [⟨"A", 0⟩],
    taxEnabled := false, lastUpdated := 0 }

/-- Claim C7, the code at the failing input: on a zero rescale base the
enable toggle does NOT report a configuration error and is NOT a no-op —
`toggleTaxFund` has no error channel at all, it divides by the zero total
(`NaN` in the source's JS arithmetic, `0` under `ℚ` division-by-zero) and
happily appends the 5% taxes entry, leaving a distribution whose
percentages sum to 5 instead of 100. -/
theorem claim7_zero_base_not_guarded :
    sumPercent stZeroBase.profitDistribution = 0 ∧
    (toggleTaxFund stZeroBase true 3).profitDistribution = [⟨"A", 0⟩, ⟨"taxes", 5⟩] ∧
    (toggleTaxFund stZeroBase true 3).profitDistribution ≠
      stZeroBase.profitDistribution ∧
    sumPercent (toggleTaxFund stZeroBase true 3).profitDistribution = 5 := by
  have h : (toggleTaxFund stZeroBase true 3).profitDistribution =
      [⟨"A", 0⟩, ⟨"taxes", 5⟩] := by
    simp only [toggleTaxFund, stZeroBase]
    norm_num [sumPercent]
  refine ⟨by norm_num [sumPercent, stZeroBase], h, ?_, ?_⟩
  · rw [h]
    simp [stZeroBase]
  · rw [h]
    norm_num [sumPercent]

/-! ### Claim C8 -/

/-- Claim C8 (amended): with the fund present, deletion succeeds exactly
when `currentBalance ≤ 0` (the source checks `> 0`, not `≠ 0`) and no
EXPENSE transaction references the fund as `sourceFundId`; a fund with
positive balance (such as `0.01`) is always rejected with the
remaining-balance reason and no state is produced. -/
theorem claim8_delete_guard (st : FinancialState) (fundId : String) (f : Fund)
    (now : ℕ) (hf : getKey st.funds fundId = some f) :
    ((∃ st', deleteFund st fundId now = .ok st') ↔
      (f.currentBalance ≤ 0 ∧
        ∀ t ∈ st.transactions, ¬(t.type = .EXPENSE ∧ t.sourceFundId = some fundId))) ∧
    (0 < f.currentBalance →
      deleteFund st fundId now = .error "Cannot delete fund with remaining balance") := by
  constructor
  · constructor
    · rintro ⟨st', h⟩
      unfold deleteFund at h
      simp only [hf] at h
      by_cases hb : f.currentBalance > 0
      · rw [if_pos hb] at h; exact Except.noConfusion h
      · refine ⟨le_of_not_lt hb, ?_⟩
        rw [if_neg hb] at h
        by_cases ha : (st.transactions.any
            fun t => decide (t.type = .EXPENSE ∧ t.sourceFundId = some fundId)) = true
        · rw [if_pos ha] at h; exact Except.noConfusion h
        · intro t ht hcon
          exact ha (List.any_eq_true.mpr ⟨t, ht, decide_eq_true hcon⟩)
    · rintro ⟨hb, hnr⟩
      have hna : ¬ ((st.transactions.any
          fun t => decide (t.type = .EXPENSE ∧ t.sourceFundId = some fundId)) = true) := by
        rw [List.any_eq_true]
        rintro ⟨t, ht, hdec⟩
        rw [decide_eq_true_eq] at hdec
        exact hnr t ht hdec
      refine ⟨{ st with
          funds := removeKey st.funds fundId
          profitDistribution := st.profitDistribution.filter
            (fun d => decide (d.fundId ≠ fundId))
          lastUpdated := now }, ?_⟩
      unfold deleteFund
      simp only [hf]
      rw [if_neg (not_lt.mpr hb), if_neg hna]
  · intro hb
    unfold deleteFund
    simp only [hf]
    rw [if_pos hb]

/-- Claim C8 witness: the guard theorem applied to the zero-balance,
unreferenced fund of `stateZero`. -/
theorem claim8_witness :
    getKey stateZero.funds "a" = some fundZero ∧
    (((∃ st', deleteFund stateZero "a" 2 = .ok st') ↔
      (fundZero.currentBalance ≤ 0 ∧
        ∀ t ∈ stateZero.transactions, ¬(t.type = .EXPENSE ∧ t.sourceFundId = some "a"))) ∧
     (0 < fundZero.currentBalance →
       deleteFund stateZero "a" 2 = .error "Cannot delete fund with remaining balance")) :=
  ⟨rfl, claim8_delete_guard stateZero "a" fundZero 2 rfl⟩

/-- Claim C8 counterexample data: a fund with balance `−1`. -/
def fundNeg : Fund :=
  { id := "a", name := "A", description := "", currentBalance := -1,
    lifetimeInflow := 0, lifetimeOutflow := 1, createdAt := 0, updatedAt := 0 }

/-- Claim C8 counterexample data: the state holding `fundNeg` alone. -/
def stNegBalance : FinancialState :=
  { funds := [("a", fundNeg)], transactions := [], profitDistribution := [],
    taxEnabled := false, lastUpdated := 0 }

/-- Claim C8, counterexample to the claim as stated: the fund's balance
is `−1 ≠ 0`, yet `deleteFund` SUCCEEDS (the source only rejects balances
`> 0`), contradicting "deletion succeeds exactly when the balance is
exactly zero". -/
theorem claim8_cex :
    getKey stNegBalance.funds "a" = some fundNeg ∧
    fundNeg.currentBalance ≠ 0 ∧
    deleteFund stNegBalance "a" 9 =
      .ok { funds := [], transactions := [], profitDistribution := [],
            taxEnabled := false, lastUpdated := 9 } := by
  refine ⟨rfl, by norm_num [fundNeg], ?_⟩
  unfold deleteFund
  simp only [show getKey stNegBalance.funds "a" = some fundNeg from rfl]
  rw [if_neg (by norm_num [fundNeg]), if_neg (by simp [stNegBalance])]
  simp [stNegBalance, removeKey]

/-! ### Claim C9 -/

/-- Per-fund counter monotonicity between two collections: any fund
present before and after an operation never sees either lifetime counter
shrink. -/
def countersMono (m m' : List (String × Fund)) : Prop :=
  ∀ k f f', getKey m k = some f → getKey m' k = some f' →
    f.lifetimeInflow ≤ f'.lifetimeInflow ∧ f.lifetimeOutflow ≤ f'.lifetimeOutflow

theorem countersMono_refl (m : List (String × Fund)) : countersMono m m := by
  intro k f f' h1 h2
  rw [h1] at h2
  injection h2 with h2
  subst h2
  exact ⟨le_refl _, le_refl _⟩

theorem counterLE_countersMono {m m' : List (String × Fund)}
    (h : counterLE m m') : countersMono m m' := by
  intro k f f' hf hf'
  obtain ⟨f0, hf0, h1, h2⟩ := h k f' hf'
  rw [hf] at hf0
  injection hf0 with hf0
  subst hf0
  exact ⟨h1, h2⟩

/-- Claim C9 (amended): the lifetime counters are non-decreasing under
every engine operation, provided every allocation the distributor
produces for an applied INCOME transaction is non-negative (the source
does not guarantee this: see the counterexample, where a last entry
absorbs a negative remainder). `createFund` needs its fresh id to be
genuinely fresh, which `uuidv4` provides. -/
theorem claim9_monotone_counters (st : FinancialState) (t : Transaction)
    (ds : List ProfitDistribution) (newId fundName fundDescription : String)
    (color : Option String) (fundId : String) (now : ℕ)
    (hamt : 0 ≤ t.amount)
    (hfreshId : getKey st.funds newId = none)
    (hallocs : ∀ cost profit res, t.costOfProduction = some cost →
      calculateProfit t.amount cost = .ok profit →
      distributeProfit profit ds = .ok res → ∀ pa ∈ res, 0 ≤ pa.2) :
    (∀ funds', applyTransactionToFunds st.funds t ds now = .ok funds' →
      countersMono st.funds funds') ∧
    countersMono st.funds (createFund st newId fundName fundDescription color now).funds ∧
    (∀ st', deleteFund st fundId now = .ok st' → countersMono st.funds st'.funds) := by
  refine ⟨?_, ?_, ?_⟩
  · intro funds' h
    unfold applyTransactionToFunds at h
    cases htt : t.type with
    | INCOME =>
      simp only [htt] at h
      cases hc : t.costOfProduction with
      | none => simp only [hc] at h; exact Except.noConfusion h
      | some cost =>
        simp only [hc] at h
        cases hcp : calculateProfit t.amount cost with
        | error e => simp only [hcp] at h; exact Except.noConfusion h
        | ok profit =>
          simp only [hcp] at h
          cases hdp : distributeProfit profit ds with
          | error e => simp only [hdp] at h; exact Except.noConfusion h
          | ok res =>
            simp only [hdp] at h
            injection h with h
            subst h
            exact counterLE_countersMono
              (applyIncomeAllocations_counterLE res st.funds now
                (hallocs cost profit res hc hcp hdp))
    | EXPENSE =>
      simp only [htt] at h
      cases hs : t.sourceFundId with
      | none =>
        simp only [hs] at h
        injection h with h
        subst h
        exact countersMono_refl _
      | some s =>
        simp only [hs] at h
        by_cases hse : s = ""
        · rw [if_pos hse] at h
          injection h with h
          subst h
          exact countersMono_refl _
        · rw [if_neg hse] at h
          cases hgf : getKey st.funds s with
          | none =>
            simp only [hgf] at h
            injection h with h
            subst h
            exact countersMono_refl _
          | some f0 =>
            simp only [hgf] at h
            injection h with h
            subst h
            exact counterLE_countersMono
              (counterLE_setKey hgf (le_refl _) (le_add_of_nonneg_right hamt))
  · intro k f f' hf hf'
    simp only [createFund] at hf'
    by_cases he : k = newId
    · subst he
      rw [hfreshId] at hf
      exact Option.noConfusion hf
    · rw [getKey_setKey_ne _ _ _ _ he] at hf'
      rw [hf] at hf'
      injection hf' with hf'
      subst hf'
      exact ⟨le_refl _, le_refl _⟩
  · intro st' h
    unfold deleteFund at h
    cases hfd : getKey st.funds fundId with
    | none => simp only [hfd] at h; exact Except.noConfusion h
    | some f0 =>
      simp only [hfd] at h
      by_cases hb : f0.currentBalance > 0
      · rw [if_pos hb] at h; exact Except.noConfusion h
      · rw [if_neg hb] at h
        by_cases ha : (st.transactions.any
            fun t => decide (t.type = .EXPENSE ∧ t.sourceFundId = some fundId)) = true
        · rw [if_pos ha] at h; exact Except.noConfusion h
        · rw [if_neg ha] at h
          injection h with h
          subst h
          intro k f f' hf hf'
          rw [getKey_removeKey] at hf'
          by_cases he : k = fundId
          · rw [if_pos he] at hf'; exact Option.noConfusion hf'
          · rw [if_neg he] at hf'
            rw [hf] at hf'
            injection hf' with hf'
            subst hf'
            exact ⟨le_refl _, le_refl _⟩

/-- Claim C9 witness: the monotonicity theorem applied to `stateZero`
with the 20-unit expense (an EXPENSE carries no allocations, so the
allocation hypothesis is vacuous). -/
theorem claim9_witness :
    (∀ funds', applyTransactionToFunds stateZero.funds expenseTwenty [] 3 = .ok funds' →
      countersMono stateZero.funds funds') ∧
    countersMono stateZero.funds (createFund stateZero "b" "B" "" none 3).funds ∧
    (∀ st', deleteFund stateZero "a" 3 = .ok st' → countersMono stateZero.funds st'.funds) :=
  claim9_monotone_counters stateZero expenseTwenty [] "b" "B" "" none "a" 3
    (by norm_num [expenseTwenty]) rfl
    (fun cost profit res hc => absurd hc (by simp [expenseTwenty]))

/-- Claim C9 counterexample data: three zero funds. -/
def fundAz : Fund :=
  { id := "a", name := "a", description := "", currentBalance := 0,
    lifetimeInflow := 0, lifetimeOutflow := 0, createdAt := 0, updatedAt := 0 }

/-- Claim C9 counterexample data. -/
def fundBz : Fund :=
  { id := "b", name := "b", description := "", currentBalance := 0,
    lifetimeInflow := 0, lifetimeOutflow := 0, createdAt := 0, updatedAt := 0 }

/-- Claim C9 counterexample data. -/
def fundCz : Fund :=
  { id := "c", name := "c", description := "", currentBalance := 0,
    lifetimeInflow := 0, lifetimeOutflow := 0, createdAt := 0, updatedAt := 0 }

/-- Claim C9 counterexample data: the distribution `[{a,50},{b,50},{c,0}]`
(sums to 100, all percentages in `[0,100]`). -/
def dsTri : List ProfitDistribution := [⟨"a", 50⟩, ⟨"b", 50⟩, ⟨"c", 0⟩]

/-- Claim C9 counterexample data: a validated 1-cent income. -/
def tTiny : Transaction :=
  { id := "t", type := .INCOME, amount := 1/100, date := 0, description := "",
    costOfProduction := some 0, createdAt := 0, updatedAt := 0 }

/-- Claim C9 counterexample data: the three-fund state. -/
def stTri : FinancialState :=
  { funds := [("a", fundAz), ("b", fundBz), ("c", fundCz)], transactions := [],
    profitDistribution := dsTri, taxEnabled := false, lastUpdated := 0 }

/-- Claim C9, counterexample to the claim as stated: applying the
VALIDATED 1-cent income over `[{a,50},{b,50},{c,0}]` rounds `0.005` up to
`0.01` twice, driving the remainder to `−0.01`; the last fund `c` is
allocated `−0.01` and its `lifetimeInflow` DECREASES from `0` to `−0.01`. -/
theorem claim9_cex :
    (validateTransaction tTiny stTri.funds 0).isValid = true ∧
    (∃ funds', applyTransactionToFunds stTri.funds tTiny dsTri 0 = .ok funds' ∧
      getKey funds' "c" = some { fundCz with
                                 currentBalance := -(1/100)
                                 lifetimeInflow := -(1/100)
                                 updatedAt := 0 }) ∧
    getKey stTri.funds "c" = some fundCz ∧
    (-1/100 : ℚ) < fundCz.lifetimeInflow := by
  have r1 : round2 ((200 : ℚ)⁻¹) = (100 : ℚ)⁻¹ := by
    norm_num [round2, jsRound]
  have r3 : round2 (-(100 : ℚ)⁻¹) = -(100 : ℚ)⁻¹ := by
    rw [show -(100 : ℚ)⁻¹ = ((-1 : ℤ) : ℚ)/100 by norm_num]
    rw [round2_eq_self ⟨-1, rfl⟩]
  have hdp : distributeProfit (1/100) dsTri =
      .ok [("a", 1/100), ("b", 1/100), ("c", -(1/100))] := by
    have hval : (validateProfitDistribution dsTri).isValid = true := by
      norm_num [validateProfitDistribution, sumPercent, dsTri]
    simp only [distributeProfit, hval, if_true]
    simp only [dsTri, distributeProfitGo, setKey]
    norm_num
    simp [r1, r3]
  refine ⟨?_, ?_, rfl, by norm_num [fundCz]⟩
  · norm_num [validateTransaction, tTiny, stTri, calculateProfit]
  · refine ⟨applyIncomeAllocations stTri.funds
      [("a", 1/100), ("b", 1/100), ("c", -(1/100))] 0, ?_, ?_⟩
    · have hcp : calculateProfit tTiny.amount 0 = .ok (1/100) := by
        norm_num [calculateProfit, tTiny]
      unfold applyTransactionToFunds
      simp only [show tTiny.type = .INCOME from rfl,
        show tTiny.costOfProduction = some 0 from rfl, hcp, hdp]
    · simp [applyIncomeAllocations, stTri, getKey, setKey, fundAz, fundBz, fundCz]

/-! ### Claim C10 -/

/-- Claim C10 data: a distribution routing half the profit to a fundId
that is not a key of the fund collection. -/
def ghostDs : List ProfitDistribution := [⟨"a", 50⟩, ⟨"ghost", 50⟩]

/-- Claim C10 data: a 100-unit income with zero cost. -/
def tHundred : Transaction :=
  { id := "t", type := .INCOME, amount := 100, date := 0, description := "",
    costOfProduction := some 0, createdAt := 0, updatedAt := 0 }

/-- Claim C10: an allocation whose fundId is not a key of the fund
collection is silently dropped — in general such a key never appears in
the result, and concretely the income of 100 over `[{a,50},{ghost,50}]`
applied to the single fund `a` succeeds with no error yet raises the
total balance by only 50, strictly less than the profit of 100. -/
theorem claim10_unknown_fund_dropped :
    (∀ (funds : List (String × Fund)) (allocs : List (String × ℚ)) (now : ℕ)
      (k : String), getKey funds k = none →
      getKey (applyIncomeAllocations funds allocs now) k = none) ∧
    getKey [("a", fundAz)] "ghost" = none ∧
    (∃ funds', applyTransactionToFunds [("a", fundAz)] tHundred ghostDs 0 = .ok funds' ∧
      getKey funds' "ghost" = none ∧
      (calculateFundTotals funds').1 = 50) ∧
    (calculateFundTotals [("a", fundAz)]).1 = 0 ∧ (50 : ℚ) < 100 := by
  have r50 : round2 (50 : ℚ) = 50 := round2_eq_self ⟨5000, by norm_num⟩
  have hval : (validateProfitDistribution ghostDs).isValid = true := by
    norm_num [validateProfitDistribution, sumPercent, ghostDs]
  have hdp : distributeProfit 100 ghostDs = .ok [("a", 50), ("ghost", 50)] := by
    simp only [distributeProfit, hval, if_true]
    simp only [ghostDs, distributeProfitGo, setKey]
    norm_num [r50]
    decide
  refine ⟨fun funds allocs now k h =>
      getKey_applyIncomeAllocations_none allocs funds now k h,
    rfl, ?_, by norm_num [calculateFundTotals, fundAz], by norm_num⟩
  refine ⟨applyIncomeAllocations [("a", fundAz)] [("a", 50), ("ghost", 50)] 0, ?_, ?_, ?_⟩
  · have hcp : calculateProfit tHundred.amount 0 = .ok 100 := by
      norm_num [calculateProfit, tHundred]
    unfold applyTransactionToFunds
    simp only [show tHundred.type = .INCOME from rfl,
      show tHundred.costOfProduction = some 0 from rfl, hcp, hdp]
  · simp [applyIncomeAllocations, getKey, setKey, fundAz]
  · simp [applyIncomeAllocations, getKey, setKey, fundAz, calculateFundTotals]

/-- Claim C10 witness: the never-materializes fact applied at a concrete
unknown key. -/
theorem claim10_witness :
    getKey (applyIncomeAllocations [("a", fundAz)] [("ghost", 5)] 0) "ghost" = none :=
  (claim10_unknown_fund_dropped).1 [("a", fundAz)] [("ghost", 5)] 0 "ghost" rfl
